import Mathlib

/-!
# Abuse gate of the conversational relay (src/main.py)

Shallow embedding of the per-identity rate-limiting gate: the cooldown
check `is_spam` (main.py lines 48-63), the sliding-window flood check
`is_flooding` (lines 76-99), and their composition in `handle_message`
(lines 136-139), which runs the flood check first and short-circuits.

Timestamps are modelled as integers (`ℤ`).  The gate only compares
timestamp differences against the integer constants below, and every
scenario in the specification uses integer instants, so the integer
model is faithful to the order-theoretic behaviour of the code.

The Python dictionaries `user_last_message_time`, `user_spam_cooldown_until`,
`user_message_log` and `user_block_until` are keyed by chat id; the
per-identity slice of that state is `ChatState`, with `Option` fields for
the two dictionaries whose keys are explicitly tested with `in` / `del`,
and a plain list for `user_message_log` (an absent key is immediately
replaced by `[]`, so absence and `[]` are indistinguishable).  The
missing `user_last_message_time` entry is an `Option` because the code
reads it with `.get(chat_id, 0)`, i.e. default 0; this default is kept
exactly (`Option.getD 0`).  The global dictionaries are modelled as a
function from identities to `ChatState` (`globalStep`, `runGlobal`).
-/

namespace AbuseGate

/-- `ANTI_SPAM_MIN_INTERVAL = 5` (main.py line 45). -/
def ANTI_SPAM_MIN_INTERVAL : ℤ := 5

/-- `ANTI_SPAM_COOLDOWN = 10` (main.py line 46). -/
def ANTI_SPAM_COOLDOWN : ℤ := 10

/-- `FLOOD_MAX_MESSAGES = 10` (main.py line 72); compared against a list length. -/
def FLOOD_MAX_MESSAGES : ℕ := 10

/-- `FLOOD_WINDOW = 60` (main.py line 73). -/
def FLOOD_WINDOW : ℤ := 60

/-- `FLOOD_BLOCK_TIME = 300` (main.py line 74). -/
def FLOOD_BLOCK_TIME : ℤ := 300

/-- The per-identity slice of the four global dictionaries of main.py. -/
structure ChatState where
  lastMessageTime : Option ℤ
  cooldownUntil : Option ℤ
  messageLog : List ℤ
  blockUntil : Option ℤ
deriving DecidableEq

/-- An identity never seen before: absent from all four dictionaries. -/
def initChatState : ChatState := ⟨none, none, [], none⟩

/-- Lines 57-63 of main.py: the part of `is_spam` after the cooldown-entry
check.  `last = user_last_message_time.get(chat_id, 0)`; if
`now - last < ANTI_SPAM_MIN_INTERVAL` set the cooldown and report spam,
else record `lastMessageTime = now` and report not-spam. -/
def spamCore (now : ℤ) (s : ChatState) : Bool × ChatState :=
  let last := s.lastMessageTime.getD 0
  if now - last < ANTI_SPAM_MIN_INTERVAL then
    (true, { s with cooldownUntil := some (now + ANTI_SPAM_COOLDOWN) })
  else
    (false, { s with lastMessageTime := some now })

/-- `is_spam` (main.py lines 48-63).  If a cooldown entry exists and is
still in the future, report spam without touching state; if it exists but
expired, delete it and fall through to `spamCore`. -/
def is_spam (now : ℤ) (s : ChatState) : Bool × ChatState :=
  match s.cooldownUntil with
  | some cu =>
      if now < cu then (true, s)
      else spamCore now { s with cooldownUntil := none }
  | none => spamCore now s

/-- Lines 85-99 of main.py: the part of `is_flooding` after the block-entry
check.  Trim the log to entries with `now - t < FLOOD_WINDOW`, append `now`,
and if the resulting length exceeds `FLOOD_MAX_MESSAGES` install the block. -/
def floodCore (now : ℤ) (s : ChatState) : Bool × ChatState :=
  let log := s.messageLog.filter (fun t => now - t < FLOOD_WINDOW) ++ [now]
  if log.length > FLOOD_MAX_MESSAGES then
    (true, { s with messageLog := log, blockUntil := some (now + FLOOD_BLOCK_TIME) })
  else
    (false, { s with messageLog := log })

/-- `is_flooding` (main.py lines 76-99).  If a block entry exists and is
still in the future, report flooding without touching state; if it exists
but expired, delete it and fall through to `floodCore`. -/
def is_flooding (now : ℤ) (s : ChatState) : Bool × ChatState :=
  match s.blockUntil with
  | some bu =>
      if now < bu then (true, s)
      else floodCore now { s with blockUntil := none }
  | none => floodCore now s

/-- The gate's verdict: `Allow` means the message proceeds past the
flood/anti-spam section of `handle_message`; `Reject` means it returns. -/
inductive Verdict
  | Allow
  | Reject
deriving DecidableEq

/-- The gate portion of `handle_message` (main.py lines 136-139):
`if is_flooding(chat_id): return` then `if is_spam(chat_id): return`.
The flood check runs first and its rejection short-circuits `is_spam`. -/
def handle_message (now : ℤ) (s : ChatState) : Verdict × ChatState :=
  let f := is_flooding now s
  if f.1 then (Verdict.Reject, f.2)
  else
    let sp := is_spam now f.2
    if sp.1 then (Verdict.Reject, sp.2) else (Verdict.Allow, sp.2)

/-- Run the gate over a list of call timestamps for one identity,
collecting the verdicts and the final state. -/
def runCalls : List ℤ → ChatState → List Verdict × ChatState
  | [], s => ([], s)
  | t :: ts, s =>
      let r := handle_message t s
      let rest := runCalls ts r.2
      (r.1 :: rest.1, rest.2)

/-- One gate call against the global dictionaries (a function from
identities to their `ChatState`): only the caller's slot is read and
written, exactly as the Python dictionaries are indexed by `chat_id`. -/
def globalStep {ι : Type} [DecidableEq ι] (g : ι → ChatState) (i : ι) (now : ℤ) :
    Verdict × (ι → ChatState) :=
  let r := handle_message now (g i)
  (r.1, fun j => if j = i then r.2 else g j)

/-- Run the gate over a list of (identity, timestamp) calls against the
global state, pairing each verdict with the identity that received it. -/
def runGlobal {ι : Type} [DecidableEq ι] :
    List (ι × ℤ) → (ι → ChatState) → List (ι × Verdict) × (ι → ChatState)
  | [], g => ([], g)
  | c :: cs, g =>
      let r := globalStep g c.1 c.2
      let rest := runGlobal cs r.2
      ((c.1, r.1) :: rest.1, rest.2)

/-- The global state in which no identity has been seen. -/
def initGlobal {ι : Type} : ι → ChatState := fun _ => initChatState

/-! ## Basic frame lemmas for the two sub-checks -/

/-- `is_spam` never touches the flood log. -/
theorem is_spam_messageLog (now : ℤ) (s : ChatState) :
    (is_spam now s).2.messageLog = s.messageLog := by
  rcases h : s.cooldownUntil with _ | cu <;>
    simp only [is_spam, spamCore, h] <;> (repeat' split) <;> rfl

/-- `is_spam` never touches the flood block. -/
theorem is_spam_blockUntil (now : ℤ) (s : ChatState) :
    (is_spam now s).2.blockUntil = s.blockUntil := by
  rcases h : s.cooldownUntil with _ | cu <;>
    simp only [is_spam, spamCore, h] <;> (repeat' split) <;> rfl

/-- `is_flooding` never touches `lastMessageTime`. -/
theorem is_flooding_lastMessageTime (now : ℤ) (s : ChatState) :
    (is_flooding now s).2.lastMessageTime = s.lastMessageTime := by
  rcases h : s.blockUntil with _ | bu <;>
    simp only [is_flooding, floodCore, h] <;> (repeat' split) <;> rfl

/-- `is_flooding` never touches the cooldown. -/
theorem is_flooding_cooldownUntil (now : ℤ) (s : ChatState) :
    (is_flooding now s).2.cooldownUntil = s.cooldownUntil := by
  rcases h : s.blockUntil with _ | bu <;>
    simp only [is_flooding, floodCore, h] <;> (repeat' split) <;> rfl

/-- The log produced by the trim-and-append step of `is_flooding`. -/
theorem floodCore_messageLog (now : ℤ) (s : ChatState) :
    (floodCore now s).2.messageLog =
      s.messageLog.filter (fun x => now - x < FLOOD_WINDOW) ++ [now] := by
  simp only [floodCore]; split <;> rfl

/-- `is_flooding` neither reads nor writes `lastMessageTime`: replacing
that field commutes with the whole flood check. -/
theorem is_flooding_set_lastMessageTime (now : ℤ) (s : ChatState) (lm : Option ℤ) :
    is_flooding now { s with lastMessageTime := lm } =
      ((is_flooding now s).1, { (is_flooding now s).2 with lastMessageTime := lm }) := by
  rcases h : s.blockUntil with _ | bu <;>
    simp only [is_flooding, floodCore, h] <;> (repeat' split) <;>
      first
      | rfl
      | simp [h]

/-- An active flood block makes the whole gate a rejecting no-op
(main.py lines 79-81 then line 136). -/
theorem handle_message_block_active (s : ChatState) (now b : ℤ)
    (hb : s.blockUntil = some b) (hnow : now < b) :
    handle_message now s = (Verdict.Reject, s) := by
  simp [handle_message, is_flooding, hb, hnow]

/-! ## C8: the gate is total and two-valued -/

/-- C8: for every identity and every timestamp the gate is a total
function whose verdict is either `Allow` or `Reject`; no input reaches an
error branch (every dictionary access in main.py lines 48-99 is guarded,
which the embedding reflects by being a plain total function). -/
theorem gate_total {ι : Type} [DecidableEq ι] (g : ι → ChatState) (i : ι) (now : ℤ) :
    (globalStep g i now).1 = Verdict.Allow ∨ (globalStep g i now).1 = Verdict.Reject := by
  cases h : (globalStep g i now).1 <;> simp

/-! ## C9: rejection by an active block is atomic -/

/-- C9: a call rejected because a flood block is already active leaves the
entire per-identity state unchanged: the log is neither trimmed nor
appended to, and `blockUntil`, `cooldownUntil`, `lastMessageTime` keep
their previous values. -/
theorem block_active_state_unchanged (s : ChatState) (now b : ℤ)
    (hb : s.blockUntil = some b) (hnow : now < b) :
    handle_message now s = (Verdict.Reject, s) :=
  handle_message_block_active s now b hb hnow

/-- Witness for C9 at a concrete blocked state. -/
theorem block_active_state_unchanged_witness :
    handle_message 50 ⟨some 3, none, [2, 3], some 100⟩ =
      (Verdict.Reject, ⟨some 3, none, [2, 3], some 100⟩) :=
  block_active_state_unchanged ⟨some 3, none, [2, 3], some 100⟩ 50 100 rfl (by decide)

/-! ## C10: every non-block-rejected call appends to the flood log -/

/-- C10: whenever no flood block is active (so the call is not rejected by
lines 79-81), the call trims the identity's log to the window and appends
its own timestamp — even when the verdict is then `Reject` via the
cooldown check, so cooldown-rejected messages still count toward a flood
block. -/
theorem log_appended_when_not_blocked (s : ChatState) (now : ℤ)
    (h : ∀ b, s.blockUntil = some b → b ≤ now) :
    (handle_message now s).2.messageLog =
      s.messageLog.filter (fun x => now - x < FLOOD_WINDOW) ++ [now] := by
  have hflood : (is_flooding now s).2.messageLog =
      s.messageLog.filter (fun x => now - x < FLOOD_WINDOW) ++ [now] := by
    rcases hb : s.blockUntil with _ | bu
    · simp only [is_flooding, hb]
      exact floodCore_messageLog now s
    · have : ¬ now < bu := not_lt.mpr (h bu hb)
      simp only [is_flooding, hb, if_neg this]
      exact floodCore_messageLog now _
  simp only [handle_message]
  split
  · exact hflood
  · have hsp := is_spam_messageLog now (is_flooding now s).2
    split <;> simp [hsp, hflood]

/-- Witness for C10: a call during an *active cooldown* (so the verdict is
`Reject` via `is_spam`) still appends its timestamp to the flood log. -/
theorem log_appended_when_not_blocked_witness :
    (handle_message 100 ⟨some 95, some 200, [90], none⟩).2.messageLog =
        ([90] : List ℤ).filter (fun x => (100 : ℤ) - x < FLOOD_WINDOW) ++ [100] ∧
      (handle_message 100 ⟨some 95, some 200, [90], none⟩).1 = Verdict.Reject :=
  ⟨log_appended_when_not_blocked ⟨some 95, some 200, [90], none⟩ 100
      (by intro b hb; cases hb),
    by decide⟩

/-! ## C6: flood-rejected calls never touch `lastMessageTime` -/

/-- C6: a call that the flood check rejects — because a block is already
active or because the call itself trips the threshold and installs one —
leaves `lastMessageTime` unchanged, and the verdict does not depend on
`lastMessageTime` at all (the short-circuit in main.py lines 136-139
means `is_spam` is never reached). -/
theorem flood_reject_frames_lastMessageTime (s : ChatState) (now : ℤ)
    (h : (is_flooding now s).1 = true) :
    (handle_message now s).2.lastMessageTime = s.lastMessageTime ∧
    ∀ lm, (handle_message now { s with lastMessageTime := lm }).1 =
      (handle_message now s).1 := by
  constructor
  · simp only [handle_message, h, if_pos]
    exact is_flooding_lastMessageTime now s
  · intro lm
    simp only [handle_message, is_flooding_set_lastMessageTime, h, if_pos]

/-- Witness for C6 at a concrete blocked state. -/
theorem flood_reject_frames_lastMessageTime_witness :
    (handle_message 50 ⟨some 3, none, [2], some 100⟩).2.lastMessageTime = some 3 ∧
    (handle_message 50 ⟨some 42, none, [2], some 100⟩).1 =
      (handle_message 50 ⟨some 3, none, [2], some 100⟩).1 := by
  have h := flood_reject_frames_lastMessageTime ⟨some 3, none, [2], some 100⟩ 50 (by decide)
  exact ⟨h.1, h.2 (some 42)⟩

/-! ## Single-call characterizations used by the cooldown claims -/

/-- A first call for a fresh identity at time `t ≥ ANTI_SPAM_MIN_INTERVAL`
is allowed: the absent `lastMessageTime` defaults to 0 and `t - 0`
clears the interval. -/
theorem handle_message_first (t : ℤ) (h : ANTI_SPAM_MIN_INTERVAL ≤ t) :
    handle_message t initChatState = (Verdict.Allow, ⟨some t, none, [t], none⟩) := by
  have hns : ¬ t < ANTI_SPAM_MIN_INTERVAL := by omega
  simp [handle_message, is_flooding, initChatState, floodCore, is_spam, spamCore,
    FLOOD_MAX_MESSAGES, hns]

/-- A second call within `ANTI_SPAM_MIN_INTERVAL` of the recorded
`lastMessageTime` is rejected and installs `cooldownUntil = now +
ANTI_SPAM_COOLDOWN` (main.py lines 58-60). -/
theorem handle_message_second (t1 t2 : ℤ) (h : t2 - t1 < ANTI_SPAM_MIN_INTERVAL) :
    handle_message t2 ⟨some t1, none, [t1], none⟩ =
      (Verdict.Reject, ⟨some t1, some (t2 + ANTI_SPAM_COOLDOWN), [t1, t2], none⟩) := by
  have hkeep : t2 - t1 < FLOOD_WINDOW := by
    simp only [ANTI_SPAM_MIN_INTERVAL] at h; simp only [FLOOD_WINDOW]; omega
  simp [handle_message, is_flooding, floodCore, is_spam, spamCore,
    FLOOD_MAX_MESSAGES, hkeep, h]

/-- A call during an active cooldown (and with a short flood log) is
rejected by `is_spam` without modifying the cooldown (main.py
lines 51-53); the flood log is still trimmed and appended (C10). -/
theorem handle_message_cooldown_active (lm : Option ℤ) (c t : ℤ) (log : List ℤ)
    (hlen : (log.filter (fun x => t - x < FLOOD_WINDOW)).length < FLOOD_MAX_MESSAGES)
    (hc : t < c) :
    handle_message t ⟨lm, some c, log, none⟩ =
      (Verdict.Reject,
        ⟨lm, some c, log.filter (fun x => t - x < FLOOD_WINDOW) ++ [t], none⟩) := by
  have hlen2 : ¬ FLOOD_MAX_MESSAGES <
      (log.filter (fun x => t - x < FLOOD_WINDOW)).length + 1 := by omega
  simp [handle_message, is_flooding, floodCore, is_spam, hlen2, hc]

/-! ## C2 (amended): fresh identity, cooldown installation and persistence -/

/-- C2 as stated is false: a fresh identity's very first call is rejected
when its timestamp is below `ANTI_SPAM_MIN_INTERVAL`, because the missing
`lastMessageTime` defaults to 0 (main.py line 57), making the interval
`4 - 0 < 5`. -/
theorem first_call_at_four_rejected :
    (handle_message 4 initChatState).1 = Verdict.Reject ∧
    (handle_message 4 initChatState).2.cooldownUntil = some 14 := by decide

/-- C2 (amended): for a fresh identity, a first call at any
`t1 ≥ ANTI_SPAM_MIN_INTERVAL` is allowed; a second call with
`t2 - t1 < ANTI_SPAM_MIN_INTERVAL` is rejected and sets
`cooldownUntil = t2 + ANTI_SPAM_COOLDOWN`; a third call at any
`t3 < cooldownUntil` is also rejected, and the cooldown persists. -/
theorem cooldown_sequence (t1 t2 t3 : ℤ)
    (h1 : ANTI_SPAM_MIN_INTERVAL ≤ t1)
    (h2 : t2 - t1 < ANTI_SPAM_MIN_INTERVAL)
    (h3 : t3 < t2 + ANTI_SPAM_COOLDOWN) :
    (runCalls [t1, t2, t3] initChatState).1 =
      [Verdict.Allow, Verdict.Reject, Verdict.Reject] ∧
    (runCalls [t1, t2, t3] initChatState).2.cooldownUntil =
      some (t2 + ANTI_SPAM_COOLDOWN) := by
  have e1 := handle_message_first t1 h1
  have e2 := handle_message_second t1 t2 h2
  have hlen : (([t1, t2] : List ℤ).filter
      (fun x => t3 - x < FLOOD_WINDOW)).length < FLOOD_MAX_MESSAGES := by
    have := List.length_filter_le (fun x => decide (t3 - x < FLOOD_WINDOW)) [t1, t2]
    simp only [List.length_cons, List.length_nil, FLOOD_MAX_MESSAGES] at this ⊢
    omega
  have e3 := handle_message_cooldown_active (some t1) (t2 + ANTI_SPAM_COOLDOWN) t3
    [t1, t2] hlen h3
  simp [runCalls, e1, e2, e3]

/-- Witness for C2 (amended) at `t1 = 5, t2 = 6, t3 = 7`. -/
theorem cooldown_sequence_witness :
    (runCalls [5, 6, 7] initChatState).1 =
      [Verdict.Allow, Verdict.Reject, Verdict.Reject] ∧
    (runCalls [5, 6, 7] initChatState).2.cooldownUntil =
      some (6 + ANTI_SPAM_COOLDOWN) :=
  cooldown_sequence 5 6 7 (by decide) (by decide) (by decide)

/-! ## C1 (amended): the concrete 11-call scenario -/

/-- The scenario's call instants `t = 0, 1, ..., 10`. -/
def scenarioTimes : List ℤ := [0, 1, 2, 3, 4, 5, 6, 7, 8, 9, 10]

/-- C1 as stated is false at its very first step: the call at `t = 0` for
a fresh identity is rejected (with `lastMessageTime` left unset), not
allowed, because the missing `lastMessageTime` defaults to 0 and
`0 - 0 < ANTI_SPAM_MIN_INTERVAL`. -/
theorem scenario_first_call_not_allowed :
    (runCalls scenarioTimes initChatState).1.head? = some Verdict.Reject ∧
    (runCalls scenarioTimes initChatState).2.lastMessageTime = none := by decide

/-- C1 (amended): with the default parameters, the 11 calls at
`t = 0, ..., 10` for a fresh identity are all rejected: the call at
`t = 0` is rejected via the cooldown check (default `lastMessageTime` 0)
and sets `cooldownUntil = 10`; the calls at `t = 1..9` are rejected by
that active cooldown; at `t = 10` the flood log reaches 11 entries,
setting `blockedUntil = 310`; `lastMessageTime` is never written; and
every call on the resulting state before `t = 310` is rejected with the
state unchanged. -/
theorem scenario_run :
    (runCalls scenarioTimes initChatState).1 = List.replicate 11 Verdict.Reject ∧
    (runCalls scenarioTimes initChatState).2 =
      ⟨none, some 10, scenarioTimes, some 310⟩ ∧
    ∀ t : ℤ, t < 310 →
      handle_message t (runCalls scenarioTimes initChatState).2 =
        (Verdict.Reject, (runCalls scenarioTimes initChatState).2) := by
  refine ⟨by decide, by decide, ?_⟩
  intro t ht
  exact handle_message_block_active _ t 310 (by decide) ht

/-- Witness for C1 (amended): the call at `t = 100` on the post-scenario
state is rejected and leaves the state unchanged. -/
theorem scenario_run_witness :
    handle_message 100 (runCalls scenarioTimes initChatState).2 =
      (Verdict.Reject, (runCalls scenarioTimes initChatState).2) :=
  scenario_run.2.2 100 (by decide)

/-! ## C3: well-spaced, under-threshold traffic is always allowed -/

/-- Running a concatenation of call lists runs them in sequence. -/
theorem runCalls_append (ts1 ts2 : List ℤ) (s : ChatState) :
    runCalls (ts1 ++ ts2) s =
      ((runCalls ts1 s).1 ++ (runCalls ts2 (runCalls ts1 s).2).1,
        (runCalls ts2 (runCalls ts1 s).2).2) := by
  induction ts1 generalizing s with
  | nil => simp [runCalls]
  | cons t ts ih => simp [runCalls, ih]

/-- The state an identity is in after a run in which every call was
allowed: no cooldown, no block, `lastMessageTime` is the last call, and
the log holds exactly the calls still inside the window of the last one. -/
def CleanAfter (ts : List ℤ) (s : ChatState) : Prop :=
  s.cooldownUntil = none ∧ s.blockUntil = none ∧
  s.lastMessageTime = ts.getLast? ∧
  s.messageLog = ts.filter (fun x => ts.getLast?.getD 0 - x < FLOOD_WINDOW)

/-- An allowed call, fully evaluated: no block, no cooldown, interval met,
and the post-append log within the threshold. -/
theorem handle_message_allow (lm : Option ℤ) (t : ℤ) (log : List ℤ)
    (hlen : (log.filter (fun x => t - x < FLOOD_WINDOW)).length < FLOOD_MAX_MESSAGES)
    (hsp : ¬ t - lm.getD 0 < ANTI_SPAM_MIN_INTERVAL) :
    handle_message t ⟨lm, none, log, none⟩ =
      (Verdict.Allow,
        ⟨some t, none, log.filter (fun x => t - x < FLOOD_WINDOW) ++ [t], none⟩) := by
  have hlen2 : ¬ FLOOD_MAX_MESSAGES <
      (log.filter (fun x => t - x < FLOOD_WINDOW)).length + 1 := by omega
  simp [handle_message, is_flooding, floodCore, is_spam, spamCore, hlen2, hsp]

/-- One inductive step for C3: from a clean state, a call spaced at least
`ANTI_SPAM_MIN_INTERVAL` after the previous one (and at least
`ANTI_SPAM_MIN_INTERVAL` absolutely, because of the default 0) whose
window count is within the threshold is allowed and keeps the state clean. -/
theorem clean_step (ts : List ℤ) (s : ChatState) (t : ℤ)
    (hs : CleanAfter ts s)
    (habs : ANTI_SPAM_MIN_INTERVAL ≤ t)
    (hlast : ∀ L, ts.getLast? = some L → L + ANTI_SPAM_MIN_INTERVAL ≤ t)
    (hwin : ((ts ++ [t]).filter (fun x => t - x < FLOOD_WINDOW)).length
      ≤ FLOOD_MAX_MESSAGES) :
    handle_message t s =
      (Verdict.Allow,
        ⟨some t, none, (ts ++ [t]).filter (fun x => t - x < FLOOD_WINDOW), none⟩) ∧
    CleanAfter (ts ++ [t]) (handle_message t s).2 := by
  obtain ⟨hc, hb, hl, hm⟩ := hs
  have hsform : s = ⟨ts.getLast?,
      none, ts.filter (fun x => ts.getLast?.getD 0 - x < FLOOD_WINDOW), none⟩ := by
    cases s; simp_all
  have hfilt : (ts.filter
        (fun x => ts.getLast?.getD 0 - x < FLOOD_WINDOW)).filter
          (fun x => t - x < FLOOD_WINDOW) =
      ts.filter (fun x => t - x < FLOOD_WINDOW) := by
    rw [List.filter_filter]
    refine List.filter_congr ?_
    intro a ha
    rcases hL : ts.getLast? with _ | L
    · rw [List.getLast?_eq_none_iff] at hL
      exact absurd ha (by simp [hL])
    · have hLt : L + ANTI_SPAM_MIN_INTERVAL ≤ t := hlast L hL
      simp only [hL, Option.getD_some]
      by_cases h : t - a < FLOOD_WINDOW
      · have hLa : L - a < FLOOD_WINDOW := by
          simp only [ANTI_SPAM_MIN_INTERVAL] at hLt
          simp only [FLOOD_WINDOW] at h ⊢
          omega
        simp [h, hLa]
      · simp [h]
  have hconcat : (ts ++ [t]).filter (fun x => t - x < FLOOD_WINDOW) =
      ts.filter (fun x => t - x < FLOOD_WINDOW) ++ [t] := by
    rw [List.filter_append]
    simp [FLOOD_WINDOW]
  have hlen : ((ts.filter (fun x => ts.getLast?.getD 0 - x < FLOOD_WINDOW)).filter
      (fun x => t - x < FLOOD_WINDOW)).length < FLOOD_MAX_MESSAGES := by
    rw [hfilt]
    have : (ts.filter (fun x => t - x < FLOOD_WINDOW)).length + 1 ≤
        FLOOD_MAX_MESSAGES := by
      rw [hconcat] at hwin
      simpa using hwin
    omega
  have hsp : ¬ t - (ts.getLast?.getD 0) < ANTI_SPAM_MIN_INTERVAL := by
    rcases hL : ts.getLast? with _ | L
    · simp only [Option.getD_none, sub_zero]
      omega
    · have := hlast L hL
      simp only [hL, Option.getD_some]
      omega
  have step := handle_message_allow ts.getLast? t
    (ts.filter (fun x => ts.getLast?.getD 0 - x < FLOOD_WINDOW)) hlen hsp
  rw [hsform, step, hfilt, ← hconcat]
  refine ⟨rfl, rfl, rfl, ?_, ?_⟩
  · simp [List.getLast?_concat]
  · simp only [List.getLast?_concat, Option.getD_some]

/-- The inductive heart of C3: under the amended hypotheses every call is
allowed and the state stays clean. -/
theorem runCalls_clean (ts : List ℤ)
    (h1 : ∀ x ∈ ts, ANTI_SPAM_MIN_INTERVAL ≤ x)
    (h2 : ts.Chain' (fun a b => a + ANTI_SPAM_MIN_INTERVAL ≤ b))
    (h3 : ∀ pre t post, ts = pre ++ t :: post →
      ((pre ++ [t]).filter (fun x => t - x < FLOOD_WINDOW)).length
        ≤ FLOOD_MAX_MESSAGES) :
    (runCalls ts initChatState).1 = List.replicate ts.length Verdict.Allow ∧
    CleanAfter ts (runCalls ts initChatState).2 := by
  induction ts using List.reverseRecOn with
  | nil =>
    exact ⟨rfl, by simp [CleanAfter, initChatState, runCalls]⟩
  | append_singleton ts t ih =>
    have h1' : ∀ x ∈ ts, ANTI_SPAM_MIN_INTERVAL ≤ x := fun x hx =>
      h1 x (List.mem_append_left _ hx)
    have h2s := List.chain'_append.mp h2
    have h3' : ∀ pre u post, ts = pre ++ u :: post →
        ((pre ++ [u]).filter (fun x => u - x < FLOOD_WINDOW)).length
          ≤ FLOOD_MAX_MESSAGES := by
      intro pre u post hdec
      exact h3 pre u (post ++ [t]) (by rw [hdec]; simp)
    obtain ⟨ihv, ihs⟩ := ih h1' h2s.1 h3'
    have habs : ANTI_SPAM_MIN_INTERVAL ≤ t :=
      h1 t (List.mem_append_right _ (List.mem_singleton_self t))
    have hlast : ∀ L, ts.getLast? = some L → L + ANTI_SPAM_MIN_INTERVAL ≤ t := by
      intro L hL
      exact h2s.2.2 L hL t rfl
    have hwin := h3 ts t [] (by simp)
    obtain ⟨hstep, hclean⟩ := clean_step ts (runCalls ts initChatState).2 t ihs
      habs hlast hwin
    rw [runCalls_append]
    constructor
    · simp [runCalls, hstep, ihv, List.replicate_succ']
    · simpa [runCalls, hstep] using hclean

/-- C3 as stated is false: the trace `[0]` is strictly increasing with
gaps of at least `ANTI_SPAM_MIN_INTERVAL` and never has more than
`FLOOD_MAX_MESSAGES` calls inside any window, yet its only call is
rejected (the default `lastMessageTime` 0 trips the cooldown check). -/
theorem spaced_single_call_rejected :
    ([0] : List ℤ).Chain' (fun a b => a + ANTI_SPAM_MIN_INTERVAL ≤ b) ∧
    (∀ pre t post, ([0] : List ℤ) = pre ++ t :: post →
      ((pre ++ [t]).filter (fun x => t - x < FLOOD_WINDOW)).length
        ≤ FLOOD_MAX_MESSAGES) ∧
    (runCalls [0] initChatState).1 = [Verdict.Reject] := by
  refine ⟨by simp, ?_, by decide⟩
  intro pre t post h
  rcases pre with _ | ⟨a, pre⟩
  · simp only [List.nil_append, List.cons.injEq] at h
    obtain ⟨rfl, rfl⟩ := h
    decide
  · simp only [List.cons_append, List.cons.injEq] at h
    obtain ⟨rfl, h⟩ := h
    exact absurd h.symm (by simp)

/-- C3 (amended): for every identity and every sequence of calls with
strictly increasing timestamps spaced at least `ANTI_SPAM_MIN_INTERVAL`
apart, each at least `ANTI_SPAM_MIN_INTERVAL` (so that the default
`lastMessageTime` of 0 does not trip the cooldown on the first call),
such that no window of length `FLOOD_WINDOW` ending at a call holds more
than `FLOOD_MAX_MESSAGES` of the calls, every call returns `Allow`. -/
theorem spaced_calls_all_allowed (ts : List ℤ)
    (h1 : ∀ x ∈ ts, ANTI_SPAM_MIN_INTERVAL ≤ x)
    (h2 : ts.Chain' (fun a b => a + ANTI_SPAM_MIN_INTERVAL ≤ b))
    (h3 : ∀ pre t post, ts = pre ++ t :: post →
      ((pre ++ [t]).filter (fun x => t - x < FLOOD_WINDOW)).length
        ≤ FLOOD_MAX_MESSAGES) :
    (runCalls ts initChatState).1 = List.replicate ts.length Verdict.Allow :=
  (runCalls_clean ts h1 h2 h3).1

/-- Witness for C3 (amended) on the trace `[5, 12]`. -/
theorem spaced_calls_all_allowed_witness :
    (runCalls [5, 12] initChatState).1 =
      List.replicate ([5, 12] : List ℤ).length Verdict.Allow := by
  apply spaced_calls_all_allowed
  · intro x hx
    simp only [List.mem_cons, List.not_mem_nil, or_false] at hx
    rcases hx with rfl | rfl <;> decide
  · simp [ANTI_SPAM_MIN_INTERVAL]
  · intro pre t post h
    rcases pre with _ | ⟨a, pre⟩
    · simp only [List.nil_append, List.cons.injEq] at h
      obtain ⟨rfl, -⟩ := h
      decide
    · simp only [List.cons_append, List.cons.injEq] at h
      obtain ⟨rfl, h⟩ := h
      rcases pre with _ | ⟨b, pre⟩
      · simp only [List.nil_append, List.cons.injEq] at h
        obtain ⟨rfl, -⟩ := h
        decide
      · simp only [List.cons_append, List.cons.injEq] at h
        obtain ⟨rfl, h⟩ := h
        exact absurd h.symm (by simp)

/-! ## C4: a burst inside one window triggers the long block -/

/-- Invariant along a burst of calls inside the span `[lo, hi]` with
`hi - lo < FLOOD_WINDOW`: nothing is ever trimmed, no block has been
installed, and the cooldown / last-message data stay bounded by the span. -/
def SpanInv (lo hi : ℤ) (pre : List ℤ) (s : ChatState) : Prop :=
  s.messageLog = pre ∧ (∀ x ∈ pre, lo ≤ x ∧ x ≤ hi) ∧ s.blockUntil = none ∧
  (∀ c, s.cooldownUntil = some c → c ≤ hi + ANTI_SPAM_COOLDOWN) ∧
  (∀ l, s.lastMessageTime = some l → l ≤ hi)

/-- While the log stays below the threshold, each in-span call appends
itself (nothing is inside-window-trimmed) and preserves `SpanInv`. -/
theorem spanInv_step (lo hi : ℤ) (pre : List ℤ) (t : ℤ) (s : ChatState)
    (hs : SpanInv lo hi pre s) (hlo : lo ≤ t) (hhi : t ≤ hi)
    (hspan : hi - lo < FLOOD_WINDOW) (hlen : pre.length < FLOOD_MAX_MESSAGES) :
    SpanInv lo hi (pre ++ [t]) (handle_message t s).2 := by
  obtain ⟨lm, cu, log, bu⟩ := s
  obtain ⟨hm, hmem, hb, hcu, hlm⟩ := hs
  simp only at hm hb hcu hlm
  subst hm
  subst hb
  have hkeep : log.filter (fun x => t - x < FLOOD_WINDOW) = log := by
    rw [List.filter_eq_self]
    intro a ha
    have hmem2 := hmem a ha
    simp only [FLOOD_WINDOW] at hspan ⊢
    simp only [decide_eq_true_eq]
    omega
  have hmem' : ∀ x ∈ log ++ [t], lo ≤ x ∧ x ≤ hi := by
    intro x hx
    rcases List.mem_append.mp hx with hx | hx
    · exact hmem x hx
    · obtain rfl := List.mem_singleton.mp hx
      exact ⟨hlo, hhi⟩
  have hlen2 : ¬ FLOOD_MAX_MESSAGES < log.length + 1 := by omega
  have hflood : is_flooding t ⟨lm, cu, log, none⟩ = (false, ⟨lm, cu, log ++ [t], none⟩) := by
    simp [is_flooding, floodCore, hkeep, hlen2]
  rcases cu with _ | c
  · by_cases hspam : t - lm.getD 0 < ANTI_SPAM_MIN_INTERVAL
    · have hres : handle_message t ⟨lm, none, log, none⟩ =
          (Verdict.Reject, ⟨lm, some (t + ANTI_SPAM_COOLDOWN), log ++ [t], none⟩) := by
        simp [handle_message, hflood, is_spam, spamCore, hspam]
      rw [hres]
      refine ⟨rfl, hmem', rfl, ?_, ?_⟩
      · intro c hc
        obtain rfl := Option.some.inj hc
        omega
      · intro l hl
        exact hlm l hl
    · have hres : handle_message t ⟨lm, none, log, none⟩ =
          (Verdict.Allow, ⟨some t, none, log ++ [t], none⟩) := by
        simp [handle_message, hflood, is_spam, spamCore, hspam]
      rw [hres]
      refine ⟨rfl, hmem', rfl, ?_, ?_⟩
      · intro c hc
        cases hc
      · intro l hl
        obtain rfl := Option.some.inj hl
        exact hhi
  · by_cases hact : t < c
    · have hres : handle_message t ⟨lm, some c, log, none⟩ =
          (Verdict.Reject, ⟨lm, some c, log ++ [t], none⟩) := by
        simp [handle_message, hflood, is_spam, hact]
      rw [hres]
      refine ⟨rfl, hmem', rfl, ?_, ?_⟩
      · intro d hd
        obtain rfl := Option.some.inj hd
        exact hcu c rfl
      · intro l hl
        exact hlm l hl
    · by_cases hspam : t - lm.getD 0 < ANTI_SPAM_MIN_INTERVAL
      · have hres : handle_message t ⟨lm, some c, log, none⟩ =
            (Verdict.Reject, ⟨lm, some (t + ANTI_SPAM_COOLDOWN), log ++ [t], none⟩) := by
          simp [handle_message, hflood, is_spam, spamCore, hact, hspam]
        rw [hres]
        refine ⟨rfl, hmem', rfl, ?_, ?_⟩
        · intro d hd
          obtain rfl := Option.some.inj hd
          omega
        · intro l hl
          exact hlm l hl
      · have hres : handle_message t ⟨lm, some c, log, none⟩ =
            (Verdict.Allow, ⟨some t, none, log ++ [t], none⟩) := by
          simp [handle_message, hflood, is_spam, spamCore, hact, hspam]
        rw [hres]
        refine ⟨rfl, hmem', rfl, ?_, ?_⟩
        · intro d hd
          cases hd
        · intro l hl
          obtain rfl := Option.some.inj hl
          exact hhi

/-- Running an in-span call list below the threshold preserves `SpanInv`,
accumulating every call in the log. -/
theorem spanInv_run (lo hi : ℤ) (hspan : hi - lo < FLOOD_WINDOW) :
    ∀ (k : List ℤ) (pre : List ℤ) (s : ChatState),
    SpanInv lo hi pre s → (∀ x ∈ k, lo ≤ x ∧ x ≤ hi) →
    pre.length + k.length ≤ FLOOD_MAX_MESSAGES →
    SpanInv lo hi (pre ++ k) (runCalls k s).2 := by
  intro k
  induction k with
  | nil =>
    intro pre s hs _ _
    simpa [runCalls] using hs
  | cons t rest ih =>
    intro pre s hs hk hlen
    have hlen1 : pre.length < FLOOD_MAX_MESSAGES := by
      simp only [List.length_cons] at hlen
      omega
    have hstep := spanInv_step lo hi pre t s hs (hk t (by simp)).1 (hk t (by simp)).2
      hspan hlen1
    have hrest := ih (pre ++ [t]) (handle_message t s).2 hstep
      (fun x hx => hk x (by simp [hx]))
      (by simp only [List.length_append, List.length_cons, List.length_nil] at hlen ⊢; omega)
    simpa [runCalls, List.append_assoc] using hrest

/-- The call that brings the in-window log to `FLOOD_MAX_MESSAGES + 1`
entries is rejected and installs `blockedUntil = now + FLOOD_BLOCK_TIME`
(main.py lines 95-97), short-circuiting `is_spam`. -/
theorem flood_trigger_step (lo hi : ℤ) (pre : List ℤ) (t : ℤ) (s : ChatState)
    (hs : SpanInv lo hi pre s) (hlo : lo ≤ t) (hhi : t ≤ hi)
    (hspan : hi - lo < FLOOD_WINDOW) (hlen : pre.length = FLOOD_MAX_MESSAGES) :
    handle_message t s =
      (Verdict.Reject,
        { s with messageLog := pre ++ [t], blockUntil := some (t + FLOOD_BLOCK_TIME) }) := by
  obtain ⟨lm, cu, log, bu⟩ := s
  obtain ⟨hm, hmem, hb, hcu, hlm⟩ := hs
  simp only at hm hb
  subst hm
  subst hb
  have hkeep : log.filter (fun x => t - x < FLOOD_WINDOW) = log := by
    rw [List.filter_eq_self]
    intro a ha
    have hmem2 := hmem a ha
    simp only [FLOOD_WINDOW] at hspan ⊢
    simp only [decide_eq_true_eq]
    omega
  have hgt : FLOOD_MAX_MESSAGES < log.length + 1 := by omega
  simp [handle_message, is_flooding, floodCore, hkeep, hgt]

/-- Once a block `hi + FLOOD_BLOCK_TIME` has expired, the next call finds
every logged timestamp outside the window and every cooldown expired, so
it clears the block, is evaluated fresh, and (for non-negative spans) is
allowed. -/
theorem handle_message_after_expiry (s : ChatState) (hi t : ℤ)
    (hb : s.blockUntil = some (hi + FLOOD_BLOCK_TIME))
    (hlog : ∀ x ∈ s.messageLog, x ≤ hi)
    (hcu : ∀ c, s.cooldownUntil = some c → c ≤ hi + ANTI_SPAM_COOLDOWN)
    (hlm : ∀ l, s.lastMessageTime = some l → l ≤ hi)
    (hhi : 0 ≤ hi)
    (ht : hi + FLOOD_BLOCK_TIME ≤ t) :
    (handle_message t s).1 = Verdict.Allow ∧
    (handle_message t s).2.blockUntil = none := by
  obtain ⟨lm, cu, log, bu⟩ := s
  simp only at hb hlog hcu hlm
  subst hb
  have hnact : ¬ t < hi + FLOOD_BLOCK_TIME := by omega
  have hdrop : log.filter (fun x => t - x < FLOOD_WINDOW) = [] := by
    rw [List.filter_eq_nil_iff]
    intro a ha
    have := hlog a ha
    simp only [FLOOD_WINDOW, FLOOD_BLOCK_TIME] at ht ⊢
    simp only [decide_eq_true_eq, not_lt]
    omega
  have hflood : is_flooding t ⟨lm, cu, log, some (hi + FLOOD_BLOCK_TIME)⟩ =
      (false, ⟨lm, cu, [t], none⟩) := by
    simp [is_flooding, floodCore, hnact, hdrop, FLOOD_MAX_MESSAGES]
  have hspam : ¬ t - lm.getD 0 < ANTI_SPAM_MIN_INTERVAL := by
    rcases lm with _ | l
    · simp only [Option.getD_none, sub_zero]
      simp only [FLOOD_BLOCK_TIME] at ht
      simp only [ANTI_SPAM_MIN_INTERVAL]
      omega
    · have := hlm l rfl
      simp only [Option.getD_some]
      simp only [FLOOD_BLOCK_TIME] at ht
      simp only [ANTI_SPAM_MIN_INTERVAL]
      omega
  rcases cu with _ | c
  · constructor <;> simp [handle_message, hflood, is_spam, spamCore, hspam]
  · have hcexp : ¬ t < c := by
      have := hcu c rfl
      simp only [FLOOD_BLOCK_TIME] at ht
      simp only [ANTI_SPAM_COOLDOWN] at this
      omega
    constructor <;> simp [handle_message, hflood, is_spam, spamCore, hcexp, hspam]

/-- C4: from a fresh identity, `FLOOD_MAX_MESSAGES + 1` calls inside one
window — all timestamps in a span `[lo, hi]` with `hi - lo < FLOOD_WINDOW`
and `0 ≤ lo`, the last call at `hi` — end with the last call rejected and
`blockedUntil = hi + FLOOD_BLOCK_TIME` installed; every later call
strictly before `blockedUntil` is rejected with the state unchanged,
regardless of spacing; and the block lasts exactly `FLOOD_BLOCK_TIME`:
the first call at or after `blockedUntil` clears it, is evaluated fresh,
and is allowed (the spacing requirements hold, every logged timestamp and
cooldown having expired). -/
theorem flood_burst (lo hi : ℤ) (ts : List ℤ)
    (hlo0 : 0 ≤ lo)
    (hlen : ts.length = FLOOD_MAX_MESSAGES + 1)
    (hmem : ∀ x ∈ ts, lo ≤ x ∧ x ≤ hi)
    (hlast : ts.getLast? = some hi)
    (hspan : hi - lo < FLOOD_WINDOW) :
    (runCalls ts initChatState).1.getLast? = some Verdict.Reject ∧
    (runCalls ts initChatState).2.blockUntil = some (hi + FLOOD_BLOCK_TIME) ∧
    (∀ t, t < hi + FLOOD_BLOCK_TIME →
      handle_message t (runCalls ts initChatState).2 =
        (Verdict.Reject, (runCalls ts initChatState).2)) ∧
    (∀ t, hi + FLOOD_BLOCK_TIME ≤ t →
      (handle_message t (runCalls ts initChatState).2).1 = Verdict.Allow ∧
      (handle_message t (runCalls ts initChatState).2).2.blockUntil = none) := by
  have hdec : ts.dropLast ++ [hi] = ts := List.dropLast_append_getLast? hi hlast
  have hlen10 : ts.dropLast.length = FLOOD_MAX_MESSAGES := by
    rw [List.length_dropLast, hlen]
    omega
  have hmem10 : ∀ x ∈ ts.dropLast, lo ≤ x ∧ x ≤ hi := fun x hx =>
    hmem x ((List.dropLast_sublist ts).mem hx)
  have hinv0 : SpanInv lo hi [] initChatState := by
    refine ⟨rfl, by simp, rfl, ?_, ?_⟩ <;> intro v hv <;> cases hv
  have hinv10 := spanInv_run lo hi hspan ts.dropLast [] initChatState hinv0 hmem10
    (by rw [hlen10]; simp)
  rw [List.nil_append] at hinv10
  have hhi_mem := hmem hi (List.mem_of_getLast?_eq_some hlast)
  have htrig := flood_trigger_step lo hi ts.dropLast hi
    (runCalls ts.dropLast initChatState).2 hinv10 hhi_mem.1 le_rfl hspan hlen10
  have hrun : runCalls ts initChatState =
      ((runCalls ts.dropLast initChatState).1 ++ [Verdict.Reject],
        { (runCalls ts.dropLast initChatState).2 with
            messageLog := ts.dropLast ++ [hi],
            blockUntil := some (hi + FLOOD_BLOCK_TIME) }) := by
    conv_lhs => rw [← hdec]
    rw [runCalls_append]
    simp [runCalls, htrig]
  rw [hrun]
  refine ⟨List.getLast?_concat _, rfl, ?_, ?_⟩
  · intro t ht
    exact handle_message_block_active _ t (hi + FLOOD_BLOCK_TIME) rfl ht
  · intro t ht
    refine handle_message_after_expiry _ hi t rfl ?_ ?_ ?_ (hlo0.trans hhi_mem.1) ht
    · intro x hx
      rcases List.mem_append.mp hx with hx | hx
      · exact (hmem10 x hx).2
      · obtain rfl := List.mem_singleton.mp hx
        exact le_rfl
    · exact hinv10.2.2.2.1
    · exact hinv10.2.2.2.2

/-- Witness for C4: eleven calls all at `t = 5`; the block is
`5 + FLOOD_BLOCK_TIME = 305`, a call at `t = 100` is rejected without
state change, and a call at `t = 400` is allowed. -/
theorem flood_burst_witness :
    (runCalls (List.replicate 11 (5 : ℤ)) initChatState).2.blockUntil =
        some (5 + FLOOD_BLOCK_TIME) ∧
    handle_message 100 (runCalls (List.replicate 11 (5 : ℤ)) initChatState).2 =
      (Verdict.Reject, (runCalls (List.replicate 11 (5 : ℤ)) initChatState).2) ∧
    (handle_message 400 (runCalls (List.replicate 11 (5 : ℤ)) initChatState).2).1 =
      Verdict.Allow := by
  have h := flood_burst 5 5 (List.replicate 11 (5 : ℤ)) (by decide) (by decide)
    (by decide) (by decide) (by decide)
  exact ⟨h.2.1, h.2.2.1 100 (by decide), (h.2.2.2 400 (by decide)).1⟩

/-! ## C5: the stored flood log never exceeds FLOOD_MAX_MESSAGES + 1 entries -/

/-- Invariant carried across non-decreasing calls (every past call `≤ T`):
the log is bounded by `FLOOD_MAX_MESSAGES + 1` (and by `FLOOD_MAX_MESSAGES`
when no block is installed), its entries are at most `T`, and — because
`FLOOD_BLOCK_TIME ≥ FLOOD_WINDOW` under the default parameters — every
logged entry falls out of the window by the time a block expires. -/
def FloodInv (T : ℤ) (s : ChatState) : Prop :=
  (∀ x ∈ s.messageLog, x ≤ T) ∧
  s.messageLog.length ≤ FLOOD_MAX_MESSAGES + 1 ∧
  (s.blockUntil = none → s.messageLog.length ≤ FLOOD_MAX_MESSAGES) ∧
  (∀ b, s.blockUntil = some b → ∀ x ∈ s.messageLog, x + FLOOD_WINDOW ≤ b)

/-- One gate call at a not-earlier instant preserves `FloodInv`. -/
theorem floodInv_step (T t : ℤ) (s : ChatState) (hs : FloodInv T s) (hT : T ≤ t) :
    FloodInv t (handle_message t s).2 := by
  obtain ⟨lm, cu, log, bu⟩ := s
  obtain ⟨hmem, hlen, hnb, hsb⟩ := hs
  simp only at hmem hlen hnb hsb
  have hmem_filt : ∀ x ∈ log.filter (fun x => t - x < FLOOD_WINDOW) ++ [t], x ≤ t := by
    intro x hx
    rcases List.mem_append.mp hx with hx | hx
    · exact le_trans (hmem x (List.mem_of_mem_filter hx)) hT
    · obtain rfl := List.mem_singleton.mp hx
      exact le_rfl
  rcases bu with _ | b
  · have hlen10 : log.length ≤ FLOOD_MAX_MESSAGES := hnb rfl
    have hflen : (log.filter (fun x => t - x < FLOOD_WINDOW)).length ≤ FLOOD_MAX_MESSAGES :=
      le_trans (List.length_filter_le _ _) hlen10
    by_cases hover : FLOOD_MAX_MESSAGES < (log.filter (fun x => t - x < FLOOD_WINDOW)).length + 1
    · have hres : handle_message t ⟨lm, cu, log, none⟩ =
          (Verdict.Reject, ⟨lm, cu, log.filter (fun x => t - x < FLOOD_WINDOW) ++ [t],
            some (t + FLOOD_BLOCK_TIME)⟩) := by
        simp [handle_message, is_flooding, floodCore, hover]
      rw [hres]
      refine ⟨hmem_filt, ?_, ?_, ?_⟩
      · simp only [List.length_append, List.length_cons, List.length_nil]
        omega
      · intro h
        cases h
      · intro b hb x hx
        obtain rfl := Option.some.inj hb
        have := hmem_filt x hx
        simp only [FLOOD_WINDOW, FLOOD_BLOCK_TIME]
        omega
    · have hflood : is_flooding t ⟨lm, cu, log, none⟩ =
          (false, ⟨lm, cu, log.filter (fun x => t - x < FLOOD_WINDOW) ++ [t], none⟩) := by
        simp [is_flooding, floodCore, hover]
      have hmsg : (handle_message t ⟨lm, cu, log, none⟩).2 =
          (is_spam t ⟨lm, cu, log.filter (fun x => t - x < FLOOD_WINDOW) ++ [t], none⟩).2 := by
        simp only [handle_message, hflood, Bool.false_eq_true, if_false]
        split <;> rfl
      rw [hmsg]
      refine ⟨?_, ?_, ?_, ?_⟩
      · rw [is_spam_messageLog]
        exact hmem_filt
      · rw [is_spam_messageLog]
        simp only [List.length_append, List.length_cons, List.length_nil]
        omega
      · intro _
        rw [is_spam_messageLog]
        simp only [List.length_append, List.length_cons, List.length_nil]
        omega
      · intro b hb
        rw [is_spam_blockUntil] at hb
        cases hb
  · by_cases hact : t < b
    · have hres : handle_message t ⟨lm, cu, log, some b⟩ =
          (Verdict.Reject, ⟨lm, cu, log, some b⟩) := by
        simp [handle_message, is_flooding, hact]
      rw [hres]
      refine ⟨fun x hx => le_trans (hmem x hx) hT, hlen, ?_, ?_⟩
      · intro h
        cases h
      · intro d hd
        obtain rfl := Option.some.inj hd
        exact hsb b rfl
    · have hdrop : log.filter (fun x => t - x < FLOOD_WINDOW) = [] := by
        rw [List.filter_eq_nil_iff]
        intro a ha
        have := hsb b rfl a ha
        simp only [decide_eq_true_eq, not_lt]
        omega
      have hflood : is_flooding t ⟨lm, cu, log, some b⟩ =
          (false, ⟨lm, cu, [t], none⟩) := by
        simp [is_flooding, floodCore, hact, hdrop, FLOOD_MAX_MESSAGES]
      have hmsg : (handle_message t ⟨lm, cu, log, some b⟩).2 =
          (is_spam t ⟨lm, cu, [t], none⟩).2 := by
        simp only [handle_message, hflood, Bool.false_eq_true, if_false]
        split <;> rfl
      rw [hmsg]
      refine ⟨?_, ?_, ?_, ?_⟩
      · rw [is_spam_messageLog]
        intro x hx
        obtain rfl := List.mem_singleton.mp hx
        exact le_rfl
      · rw [is_spam_messageLog]
        simp [FLOOD_MAX_MESSAGES]
      · intro _
        rw [is_spam_messageLog]
        simp [FLOOD_MAX_MESSAGES]
      · intro d hd
        rw [is_spam_blockUntil] at hd
        cases hd

/-- `FloodInv` is preserved along any run with non-decreasing timestamps. -/
theorem floodInv_run (ts : List ℤ) :
    ∀ (T : ℤ) (s : ChatState), FloodInv T s → ts.Pairwise (· ≤ ·) →
    (∀ x ∈ ts, T ≤ x) → ∃ U, FloodInv U (runCalls ts s).2 := by
  induction ts with
  | nil =>
    intro T s hs _ _
    exact ⟨T, by simpa [runCalls] using hs⟩
  | cons t rest ih =>
    intro T s hs hp hT
    have hstep := floodInv_step T t s hs (hT t (by simp))
    have hrest := ih t (handle_message t s).2 hstep (List.pairwise_cons.mp hp).2
      (List.pairwise_cons.mp hp).1
    simpa [runCalls] using hrest

/-- Per-identity form of C5: along any non-decreasing call sequence from
the fresh state, the stored flood log stays within
`FLOOD_MAX_MESSAGES + 1` entries. -/
theorem runCalls_log_bounded (ts : List ℤ) (hts : ts.Pairwise (· ≤ ·)) :
    (runCalls ts initChatState).2.messageLog.length ≤ FLOOD_MAX_MESSAGES + 1 := by
  rcases ts with _ | ⟨t, rest⟩
  · simp [runCalls, initChatState]
  · have hinv : FloodInv t initChatState := by
      refine ⟨?_, ?_, ?_, ?_⟩ <;> simp [initChatState]
    have hmem : ∀ x ∈ t :: rest, t ≤ x := by
      intro x hx
      rcases List.mem_cons.mp hx with rfl | hx
      · exact le_rfl
      · exact (List.pairwise_cons.mp hts).1 x hx
    obtain ⟨U, hU⟩ := floodInv_run (t :: rest) t initChatState hinv hts hmem
    exact hU.2.1

/-! ## Projection of the global run to one identity -/

/-- The slot of identity `i` after a global run is the per-identity run of
`i`'s own calls: calls keyed by other identities never touch it. -/
theorem runGlobal_state_proj {ι : Type} [DecidableEq ι] (cs : List (ι × ℤ)) :
    ∀ (g : ι → ChatState) (i : ι),
    (runGlobal cs g).2 i =
      (runCalls ((cs.filter (fun c => c.1 = i)).map Prod.snd) (g i)).2 := by
  induction cs with
  | nil =>
    intro g i
    simp [runGlobal, runCalls]
  | cons c cs ih =>
    intro g i
    simp only [runGlobal]
    rw [ih]
    by_cases hc : c.1 = i
    · subst hc
      simp [globalStep, runCalls, List.filter_cons]
    · simp [globalStep, runCalls, List.filter_cons, hc, Ne.symm hc]

/-- The verdicts handed to identity `i` during a global run are exactly
the verdicts of the per-identity run of `i`'s own calls. -/
theorem runGlobal_verdict_proj {ι : Type} [DecidableEq ι] (cs : List (ι × ℤ)) :
    ∀ (g : ι → ChatState) (i : ι),
    ((runGlobal cs g).1.filter (fun p => p.1 = i)).map Prod.snd =
      (runCalls ((cs.filter (fun c => c.1 = i)).map Prod.snd) (g i)).1 := by
  induction cs with
  | nil =>
    intro g i
    simp [runGlobal, runCalls]
  | cons c cs ih =>
    intro g i
    simp only [runGlobal]
    by_cases hc : c.1 = i
    · subst hc
      simp [List.filter_cons, globalStep, runCalls, ih]
    · simp [List.filter_cons, hc, Ne.symm hc, globalStep, runCalls, ih]

/-! ## C5: global form over the per-identity dictionaries -/

/-- C5: under the default parameters and non-decreasing call timestamps,
after any sequence of gate calls from the fresh global state, every
identity's stored flood log holds at most `FLOOD_MAX_MESSAGES + 1`
entries — the per-call trim is bounded. -/
theorem flood_log_bounded {ι : Type} [DecidableEq ι] (cs : List (ι × ℤ))
    (hcs : cs.Pairwise (fun a b => a.2 ≤ b.2)) (i : ι) :
    ((runGlobal cs initGlobal).2 i).messageLog.length ≤ FLOOD_MAX_MESSAGES + 1 := by
  rw [runGlobal_state_proj]
  refine runCalls_log_bounded _ ?_
  exact List.pairwise_map.mpr ((hcs.sublist (List.filter_sublist cs)).imp fun h => h)

/-- Witness for C5 on a concrete two-identity trace. -/
theorem flood_log_bounded_witness :
    ((runGlobal [((0 : ℤ), (1 : ℤ)), (1, 2), (0, 3)] initGlobal).2 0).messageLog.length ≤
      FLOOD_MAX_MESSAGES + 1 :=
  flood_log_bounded [((0 : ℤ), (1 : ℤ)), (1, 2), (0, 3)] (by decide) 0

/-! ## C7: distinct identities never interact -/

/-- C7: state isolation between distinct identities `A ≠ B`: one gate call
for `A` leaves `B`'s slot untouched; replacing `B`'s slot arbitrarily does
not change the verdict of `A`'s call (no read); and `B`'s verdicts along
any global trace are identical to those along the same trace with every
call by `A` (flooding or not) removed. -/
theorem identity_isolation {ι : Type} [DecidableEq ι] (A B : ι) (hAB : A ≠ B)
    (g : ι → ChatState) (now : ℤ) (sB : ChatState) (cs : List (ι × ℤ)) :
    (globalStep g A now).2 B = g B ∧
    (globalStep (fun j => if j = B then sB else g j) A now).1 = (globalStep g A now).1 ∧
    ((runGlobal cs g).1.filter (fun p => p.1 = B)).map Prod.snd =
      ((runGlobal (cs.filter (fun c => ¬ c.1 = A)) g).1.filter
        (fun p => p.1 = B)).map Prod.snd := by
  refine ⟨?_, ?_, ?_⟩
  · simp [globalStep, Ne.symm hAB]
  · simp [globalStep, hAB]
  · rw [runGlobal_verdict_proj, runGlobal_verdict_proj]
    rw [List.filter_filter]
    have hfe : ∀ c ∈ cs, (decide (c.1 = B) && decide (¬ c.1 = A)) = decide (c.1 = B) := by
      intro c _
      by_cases h : c.1 = B
      · simp [h, Ne.symm hAB]
      · simp [h]
    rw [List.filter_congr hfe]

/-- Witness for C7 with integer identities `A = 0`, `B = 1`. -/
theorem identity_isolation_witness :
    (globalStep (initGlobal : ℤ → ChatState) 0 7).2 1 = initGlobal 1 ∧
    (globalStep (fun j => if j = (1 : ℤ) then ⟨some 1, none, [], none⟩ else initGlobal j)
        0 7).1 = (globalStep (initGlobal : ℤ → ChatState) 0 7).1 ∧
    ((runGlobal [((0 : ℤ), (3 : ℤ)), (1, 9)] initGlobal).1.filter
        (fun p => p.1 = 1)).map Prod.snd =
      ((runGlobal (([((0 : ℤ), (3 : ℤ)), (1, 9)]).filter (fun c => ¬ c.1 = 0))
          initGlobal).1.filter (fun p => p.1 = 1)).map Prod.snd :=
  identity_isolation 0 1 (by decide) initGlobal 7 ⟨some 1, none, [], none⟩
    [((0 : ℤ), (3 : ℤ)), (1, 9)]

